import Mathlib

set_option maxRecDepth 8000

/-!
Verification of the three exercise units of the repository:
the Collatz step counter (`src/training/collatz-conjecture/collatz_conjecture.c`),
the difference-of-squares trio (`src/training/difference-of-squares/difference_of_squares.h`),
and the queen attack checker (`src/training/queen-attack/queen_attack.h`).

Only the Collatz unit ships an implementation under `src/`; the other two
units ship headers (types and declarations) only, so their bodies are
modelled from the specification, with the integer widths taken from the
header declarations (`unsigned int`, `uint8_t`).
-/

/-! ## Collatz step counter, exact integer arithmetic

Embedding of `int steps(int start)` from
`src/training/collatz-conjecture/collatz_conjecture.c`, with mathematical
integers in place of `int` (exact arithmetic) and an explicit fuel
parameter bounding the recursion depth, since the recursion has no known
termination proof. `Int.tdiv` and `Int.tmod` are truncated division and
remainder, matching the semantics of the C operators `/` and `%`. -/
def steps : Nat → Int → Option Int
  | 0, _ => none
  | fuel + 1, start =>
    if start ≤ 0 then some (-1)
    else if start = 1 then some 0
    else if Int.tmod start 2 = 0 then
      (steps fuel (Int.tdiv start 2)).map (· + 1)
    else
      (steps fuel (3 * start + 1)).map (· + 1)

/-! ## Collatz step counter, 32-bit wraparound arithmetic

Variant of the embedding in which every arithmetic operation is reduced
to the two's-complement 32-bit range, modelling `int` as a machine word
that silently wraps. -/

/-- Reduction of an integer into the two's-complement 32-bit range
[-2^31, 2^31). -/
def wrap32 (x : Int) : Int := Int.emod (x + 2 ^ 31) (2 ^ 32) - 2 ^ 31

/-- Embedding of `steps` where each arithmetic operation (`3 * start`,
`... + 1`, and the `+ 1` applied to each recursive result) wraps to the
32-bit range; `start / 2` on an in-range value cannot leave the range. -/
def steps32 : Nat → Int → Option Int
  | 0, _ => none
  | fuel + 1, start =>
    if start ≤ 0 then some (-1)
    else if start = 1 then some 0
    else if Int.tmod start 2 = 0 then
      (steps32 fuel (Int.tdiv start 2)).map (fun k => wrap32 (k + 1))
    else
      (steps32 fuel (wrap32 (wrap32 (3 * start) + 1))).map (fun k => wrap32 (k + 1))

/-- C1: the base case and the two recurrence equations of `steps`. For any
fuel, `steps (1)` returns 0; for `start > 1` even, if the recursive call on
`start / 2` returns `k` then `steps start` returns `k + 1`; for `start > 1`
odd, if the recursive call on `3 * start + 1` returns `k` then `steps start`
returns `k + 1`. -/
theorem steps_base_and_recurrence :
    (∀ fuel : Nat, steps (fuel + 1) 1 = some 0) ∧
    (∀ (fuel : Nat) (start k : Int), 1 < start → Int.tmod start 2 = 0 →
      steps fuel (Int.tdiv start 2) = some k → steps (fuel + 1) start = some (k + 1)) ∧
    (∀ (fuel : Nat) (start k : Int), 1 < start → Int.tmod start 2 ≠ 0 →
      steps fuel (3 * start + 1) = some k → steps (fuel + 1) start = some (k + 1)) := by
  refine ⟨fun fuel => by simp [steps], ?_, ?_⟩
  · intro fuel start k hs he hrec
    have h0 : ¬ start ≤ 0 := by omega
    have h1 : start ≠ 1 := by omega
    simp [steps, h0, h1, he, hrec]
  · intro fuel start k hs ho hrec
    have h0 : ¬ start ≤ 0 := by omega
    have h1 : start ≠ 1 := by omega
    simp [steps, h0, h1, ho, hrec]

/-- Witness for C1: the base case at fuel 0, and the even recurrence at
`start = 16` (where the recursive call on 8 yields 3, so `steps 16`
yields 4, matching the spec example `steps(16) == 4`). -/
theorem steps_base_and_recurrence_witness :
    steps 1 1 = some 0 ∧ steps 5 16 = some 4 := by
  refine ⟨steps_base_and_recurrence.1 0, ?_⟩
  have h := steps_base_and_recurrence.2.1 4 16 3 (by decide) (by decide) (by decide)
  exact h

/-- C4: for every non-positive `start`, `steps` immediately returns the
sentinel value -1 signalling invalid input. -/
theorem steps_nonpositive_invalid (fuel : Nat) (start : Int) (h : start ≤ 0) :
    steps (fuel + 1) start = some (-1) := by
  simp [steps, h]

/-- Witness for C4: the spec examples `steps(0) == invalid` and
`steps(-5) == invalid`, both returning the -1 sentinel. -/
theorem steps_nonpositive_invalid_witness :
    steps 1 0 = some (-1) ∧ steps 1 (-5) = some (-1) :=
  ⟨steps_nonpositive_invalid 0 0 (by decide),
   steps_nonpositive_invalid 0 (-5) (by decide)⟩

/-- Truncated division of an integer at least 2 by 2 yields a positive
result. -/
lemma int_tdiv_two_pos {s : Int} (h : 2 ≤ s) : 1 ≤ Int.tdiv s 2 := by
  obtain ⟨n, rfl⟩ := Int.eq_ofNat_of_zero_le (by omega : (0 : Int) ≤ s)
  have hn : 2 ≤ n := by exact_mod_cast h
  show 1 ≤ (Int.ofNat (n / 2))
  have : 1 ≤ n / 2 := by omega
  exact Int.ofNat_le.mpr this

/-- C9: under exact integer arithmetic, both recursive arguments of `steps`
are positive whenever `start > 1` (so the `start <= 0` error branch is
unreachable from a valid input), and every value `steps` returns on a
positive input is non-negative, i.e. never the -1 sentinel. -/
theorem steps_positive_no_sentinel :
    (∀ start : Int, 1 < start →
      0 < Int.tdiv start 2 ∧ 0 < 3 * start + 1) ∧
    (∀ (fuel : Nat) (start k : Int), 1 ≤ start → steps fuel start = some k → 0 ≤ k) := by
  constructor
  · intro start hs
    exact ⟨int_tdiv_two_pos (by omega), by omega⟩
  · intro fuel
    induction fuel with
    | zero => intro start k _ hk; simp [steps] at hk
    | succ f ih =>
      intro start k hs hk
      have h0 : ¬ start ≤ 0 := by omega
      by_cases h1 : start = 1
      · subst h1; simp [steps] at hk; omega
      · have hs2 : 2 ≤ start := by omega
        by_cases he : Int.tmod start 2 = 0
        · simp only [steps, if_neg h0, if_neg h1, if_pos he, Option.map_eq_some'] at hk
          obtain ⟨k0, hk0, rfl⟩ := hk
          have := ih (Int.tdiv start 2) k0 (int_tdiv_two_pos hs2) hk0
          omega
        · simp only [steps, if_neg h0, if_neg h1, if_neg he, Option.map_eq_some'] at hk
          obtain ⟨k0, hk0, rfl⟩ := hk
          have := ih (3 * start + 1) k0 (by omega) hk0
          omega

/-- Witness for C9: at `start = 2` both recursive arguments are positive,
and the value returned by `steps` at the positive input 2 (namely 1) is
non-negative. -/
theorem steps_positive_no_sentinel_witness :
    (0 < Int.tdiv 2 2 ∧ (0 : Int) < 3 * 2 + 1) ∧ (0 : Int) ≤ 1 :=
  ⟨steps_positive_no_sentinel.1 2 (by decide),
   steps_positive_no_sentinel.2 2 2 1 (by decide) (by decide)⟩

/-- C10: with 32-bit wraparound arithmetic, the positive odd input
715827883 makes `3 * start + 1` wrap to the non-positive value
-2147483646, the inner recursive call returns the -1 sentinel, and the
caller adds 1 to it without checking, so `steps32` returns the
non-negative but incorrect value 0 for a start different from 1. -/
theorem steps32_wraparound_loses_sentinel :
    0 < (715827883 : Int) ∧ Int.tmod 715827883 2 ≠ 0 ∧
    wrap32 (wrap32 (3 * 715827883) + 1) ≤ 0 ∧
    steps32 1 (wrap32 (wrap32 (3 * 715827883) + 1)) = some (-1) ∧
    steps32 2 715827883 = some 0 ∧ (715827883 : Int) ≠ 1 := by
  refine ⟨by decide, by decide, by decide, ?_, ?_, by decide⟩
  · decide
  · decide

/-! ## Difference of squares

The header `src/training/difference-of-squares/difference_of_squares.h`
declares the three functions with `unsigned int` argument and result and
defines the sentinel constant `OVERFLOW`; the implementation file is not
part of the sources, so the function bodies are modelled from the
specification, computed at the declared 32-bit unsigned width (all
`unsigned int` arithmetic is reduced modulo `2^32`). -/

/-- Header constant `#define OVERFLOW 2` from `difference_of_squares.h`. -/
def OVERFLOW : Nat := 2

/-- Modulus of `unsigned int` arithmetic, `2 ^ 32`. -/
def U32 : Nat := 4294967296

/-- Mathematical sum `1 + 2 + ... + n`. -/
def sumTo : Nat → Nat
  | 0 => 0
  | n + 1 => sumTo n + (n + 1)

/-- Mathematical sum `1^2 + 2^2 + ... + n^2`. -/
def sumSqTo : Nat → Nat
  | 0 => 0
  | n + 1 => sumSqTo n + (n + 1) * (n + 1)

/-- Modelled from the spec: the body of `square_of_sum` is missing from
the sources; per the spec it computes `s = sum_{i=1}^{n} i` and returns
`s * s`, at the header's `unsigned int` width. -/
def square_of_sum (n : Nat) : Nat := (sumTo n % U32) * (sumTo n % U32) % U32

/-- Modelled from the spec: the body of `sum_of_squares` is missing from
the sources; per the spec it computes `sum_{i=1}^{n} i * i`, at the
header's `unsigned int` width. -/
def sum_of_squares (n : Nat) : Nat := sumSqTo n % U32

/-- Modelled from the spec: the body of `difference_of_squares` is missing
from the sources; per the spec it returns
`square_of_sum(n) - sum_of_squares(n)`, where the subtraction is the
`unsigned int` subtraction, i.e. reduced modulo `2^32`. -/
def difference_of_squares (n : Nat) : Nat :=
  (square_of_sum n + (U32 - sum_of_squares n)) % U32

/-- Monotonicity of the partial sums of the identity. -/
lemma sumTo_le_sumTo {n m : Nat} (h : n ≤ m) : sumTo n ≤ sumTo m := by
  induction h with
  | refl => exact Nat.le_refl _
  | step _ ih => exact Nat.le_trans ih (Nat.le_add_right _ _)

/-- Monotonicity of the partial sums of squares. -/
lemma sumSqTo_le_sumSqTo {n m : Nat} (h : n ≤ m) : sumSqTo n ≤ sumSqTo m := by
  induction h with
  | refl => exact Nat.le_refl _
  | step _ ih => exact Nat.le_trans ih (Nat.le_add_right _ _)

/-- The square of the sum dominates the sum of the squares. -/
lemma sumSqTo_le_sq_sumTo (n : Nat) : sumSqTo n ≤ sumTo n * sumTo n := by
  induction n with
  | zero => simp [sumTo, sumSqTo]
  | succ k ih =>
    show sumSqTo k + (k + 1) * (k + 1) ≤
      (sumTo k + (k + 1)) * (sumTo k + (k + 1))
    nlinarith [ih]

/-- C3: for every n, the computed `difference_of_squares n` is exactly the
mathematical value `square_of_sum - sum_of_squares` reduced modulo `2^32`,
and in the ring of 32-bit unsigned values it equals
`square_of_sum n - sum_of_squares n`. -/
theorem difference_of_squares_identity (n : Nat) :
    difference_of_squares n = (sumTo n * sumTo n - sumSqTo n) % U32 ∧
    (difference_of_squares n : ZMod U32) =
      (square_of_sum n : ZMod U32) - (sum_of_squares n : ZMod U32) := by
  constructor
  · have hba := sumSqTo_le_sq_sumTo n
    unfold difference_of_squares square_of_sum sum_of_squares U32
    unfold U32 at *
    set a := sumTo n * sumTo n with ha
    set b := sumSqTo n with hb
    have : a % 4294967296 = (sumTo n % 4294967296) * (sumTo n % 4294967296) % 4294967296 := by
      rw [ha, Nat.mul_mod]
    rw [← this]
    omega
  · have hle : sum_of_squares n ≤ U32 :=
      le_of_lt (Nat.mod_lt _ (by unfold U32; omega))
    unfold difference_of_squares
    rw [ZMod.natCast_mod, Nat.cast_add, Nat.cast_sub hle, ZMod.natCast_self]
    ring

/-- C8: the example values from the spec, at the bound 0 all three
functions return 0, and at the bound 5 they return 225, 55 and 170. -/
theorem difference_of_squares_examples :
    square_of_sum 0 = 0 ∧ sum_of_squares 0 = 0 ∧ difference_of_squares 0 = 0 ∧
    square_of_sum 5 = 225 ∧ sum_of_squares 5 = 55 ∧ difference_of_squares 5 = 170 := by
  decide

/-- C5 counterexample: at the bound n = 362 (within the claimed range
n ≤ 3000) the 32-bit computation of `square_of_sum` wraps around, so the
computed value differs from the mathematical value. -/
theorem square_of_sum_wraps_at_362 :
    362 ≤ 3000 ∧ square_of_sum 362 ≠ sumTo 362 * sumTo 362 := by
  decide

/-- C5 amended: for every bound n ≤ 361 no wraparound occurs, each of the
three functions returns exactly its mathematical value. -/
theorem no_wraparound_up_to_361 (n : Nat) (h : n ≤ 361) :
    square_of_sum n = sumTo n * sumTo n ∧
    sum_of_squares n = sumSqTo n ∧
    difference_of_squares n = sumTo n * sumTo n - sumSqTo n := by
  have h1 : sumTo n ≤ 65341 := by
    have := sumTo_le_sumTo h
    have h361 : sumTo 361 = 65341 := by decide
    omega
  have h2 : sumSqTo n ≤ 15747181 := by
    have := sumSqTo_le_sumSqTo h
    have h361 : sumSqTo 361 = 15747181 := by decide
    omega
  have hsq : sumTo n * sumTo n ≤ 65341 * 65341 := Nat.mul_le_mul h1 h1
  have hba := sumSqTo_le_sq_sumTo n
  unfold square_of_sum sum_of_squares difference_of_squares square_of_sum sum_of_squares U32
  set a := sumTo n with hA
  set b := sumSqTo n with hB
  set c := a * a with hC
  have hmul : a % 4294967296 * (a % 4294967296) % 4294967296 = c % 4294967296 := by
    rw [hC]
    conv_rhs => rw [Nat.mul_mod]
  rw [hmul]
  omega

/-- Witness for C5 amended: at the bound 5 the computed and mathematical
values agree. -/
theorem no_wraparound_up_to_361_witness :
    square_of_sum 5 = sumTo 5 * sumTo 5 ∧
    sum_of_squares 5 = sumSqTo 5 ∧
    difference_of_squares 5 = sumTo 5 * sumTo 5 - sumSqTo 5 :=
  no_wraparound_up_to_361 5 (by decide)

/-! ## Queen attack checker

The header `src/training/queen-attack/queen_attack.h` declares the
tri-state result enum `attack_status_t`, the `position_t` struct with
`uint8_t` coordinates (hence never negative), and the five functions; the
implementation file is not part of the sources, so the function bodies are
modelled from the specification's five-step decision cascade. -/

/-- Result enum from `queen_attack.h`. -/
inductive attack_status_t where
  | CAN_NOT_ATTACK
  | CAN_ATTACK
  | INVALID_POSITION
deriving DecidableEq

/-- Board position struct from `queen_attack.h`; the `uint8_t` fields are
modelled as natural numbers, which likewise cannot be negative. -/
structure position_t where
  row : Nat
  column : Nat
deriving DecidableEq

/-- Modelled from the spec: the body of `out_of_board` is missing from the
sources; a position is out of board bounds when its row or column is
outside [0,7] (for the unsigned coordinates, when it exceeds 7). -/
def out_of_board (q : position_t) : Bool := 7 < q.row || 7 < q.column

/-- Modelled from the spec: the body of `same_position` is missing from
the sources; two positions are the same when both coordinates agree. -/
def same_position (q1 q2 : position_t) : Bool :=
  q1.row == q2.row && q1.column == q2.column

/-- Modelled from the spec: the body of `on_same_row_or_column` is missing
from the sources; it holds when the rows or the columns agree. -/
def on_same_row_or_column (q1 q2 : position_t) : Bool :=
  q1.row == q2.row || q1.column == q2.column

/-- Modelled from the spec: the body of `on_same_diagonal` is missing from
the sources; it holds when `abs(row1 - row2) == abs(col1 - col2)`. -/
def on_same_diagonal (q1 q2 : position_t) : Bool :=
  ((q1.row : Int) - (q2.row : Int)).natAbs ==
    ((q1.column : Int) - (q2.column : Int)).natAbs

/-- Modelled from the spec: the body of `can_attack` is missing from the
sources; per the spec's decision cascade it checks board bounds, then
identical positions (returning the documented degenerate result
CAN_NOT_ATTACK), then row or column alignment, then diagonal alignment. -/
def can_attack (q1 q2 : position_t) : attack_status_t :=
  if out_of_board q1 || out_of_board q2 then .INVALID_POSITION
  else if same_position q1 q2 then .CAN_NOT_ATTACK
  else if on_same_row_or_column q1 q2 then .CAN_ATTACK
  else if on_same_diagonal q1 q2 then .CAN_ATTACK
  else .CAN_NOT_ATTACK

/-- C2: `can_attack` decides, in order: out-of-bounds coordinates give
INVALID_POSITION; identical positions give the `same_position` result
CAN_NOT_ATTACK; a shared row or column gives CAN_ATTACK; equal absolute
row and column differences give CAN_ATTACK; anything else gives
CAN_NOT_ATTACK. -/
theorem can_attack_cascade (q1 q2 : position_t) :
    can_attack q1 q2 =
      if 7 < q1.row ∨ 7 < q1.column ∨ 7 < q2.row ∨ 7 < q2.column then
        attack_status_t.INVALID_POSITION
      else if q1.row = q2.row ∧ q1.column = q2.column then
        attack_status_t.CAN_NOT_ATTACK
      else if q1.row = q2.row ∨ q1.column = q2.column then
        attack_status_t.CAN_ATTACK
      else if ((q1.row : Int) - (q2.row : Int)).natAbs =
          ((q1.column : Int) - (q2.column : Int)).natAbs then
        attack_status_t.CAN_ATTACK
      else attack_status_t.CAN_NOT_ATTACK := by
  obtain ⟨r1, c1⟩ := q1
  obtain ⟨r2, c2⟩ := q2
  simp only [can_attack, out_of_board, same_position, on_same_row_or_column,
    on_same_diagonal, Bool.or_eq_true, Bool.and_eq_true, decide_eq_true_eq,
    beq_iff_eq]
  split_ifs <;> first | rfl | tauto

/-- C6: for every in-bounds position paired with itself, `can_attack`
returns CAN_NOT_ATTACK. -/
theorem can_attack_same_square (r c : Nat) (hr : r ≤ 7) (hc : c ≤ 7) :
    can_attack ⟨r, c⟩ ⟨r, c⟩ = attack_status_t.CAN_NOT_ATTACK := by
  simp [can_attack, out_of_board, same_position, Nat.not_lt.mpr hr,
    Nat.not_lt.mpr hc]

/-- Witness for C6: the spec's example pair (0,0) and (0,0). -/
theorem can_attack_same_square_witness :
    can_attack ⟨0, 0⟩ ⟨0, 0⟩ = attack_status_t.CAN_NOT_ATTACK :=
  can_attack_same_square 0 0 (by decide) (by decide)
